import Mathlib

set_option maxHeartbeats 1600000

/-!
Verification of the chunk codec, chunk store and filter compiler of the
mitmproxy_db_poc repository (src/dbview.py and src/dbviewff.py), as a shallow
embedding.  Python values that flow states are built from are modeled by
`Val`; dicts keep insertion order, as Python dicts do.  JSON text payloads
are modeled by their parsed value (json.dumps and json.loads are mutually
inverse on the JSON fragment of `Val`).  A Python function that can raise an
uncaught exception is modeled as returning an `Option`, `none` standing for
the raised exception.
-/

/-- JSON-like Python value. `vbytes` is a Python bytes object carrying its
decoded text, `vstr` a Python str; JSON numbers are modeled as integers. -/
inductive Val where
  | vnull
  | vbool (b : Bool)
  | vint (n : Int)
  | vstr (s : String)
  | vbytes (s : String)
  | varr (items : List Val)
  | vobj (fields : List (String × Val))
deriving Repr

/-- Python dict lookup d[key] (first binding wins; Python dicts never hold a
key twice). `none` is a KeyError. -/
def lookupD : List (String × Val) → String → Option Val
  | [], _ => none
  | (k, v) :: rest, key => if k = key then some v else lookupD rest key

/-- Python `key in d`. -/
def containsD (d : List (String × Val)) (key : String) : Bool :=
  d.any (fun p => p.1 == key)

/-- Python dict assignment d[key] = v: replaces the binding in place when the
key is present, else appends it (insertion order). -/
def dset : List (String × Val) → String → Val → List (String × Val)
  | [], key, v => [(key, v)]
  | (k, w) :: rest, key, v =>
    if k = key then (key, v) :: rest else (k, w) :: dset rest key v

/-- Python d.pop(key): the removed value and the remaining dict, `none` a
KeyError. -/
def dpop : List (String × Val) → String → Option (Val × List (String × Val))
  | [], _ => none
  | (k, w) :: rest, key =>
    if k = key then some (w, rest)
    else (dpop rest key).map (fun p => (p.1, (k, w) :: p.2))

/-- Python d.update(d2): every binding of d2 assigned into d, in order. -/
def dmerge (d d2 : List (String × Val)) : List (String × Val) :=
  d2.foldl (fun acc p => dset acc p.1 p.2) d

mutual
/-- The value json.loads(json.dumps(x, cls=BytesDecoder)) produces
(src/dbview.py lines 119-122): BytesDecoder turns every bytes object into its
decoded str, JSON keeps everything else. -/
def pyToJson : Val → Val
  | .vnull => .vnull
  | .vbool b => .vbool b
  | .vint n => .vint n
  | .vstr s => .vstr s
  | .vbytes s => .vstr s
  | .varr xs => .varr (pyToJsonList xs)
  | .vobj fs => .vobj (pyToJsonDict fs)

/-- pyToJson over a list. -/
def pyToJsonList : List Val → List Val
  | [] => []
  | x :: xs => pyToJson x :: pyToJsonList xs

/-- pyToJson over a dict's values. -/
def pyToJsonDict : List (String × Val) → List (String × Val)
  | [] => []
  | (k, v) :: fs => (k, pyToJson v) :: pyToJsonDict fs
end

/-- Python truthiness of the modeled values (empty containers and null are
falsy). -/
def pyTruthy : Val → Bool
  | .vnull => false
  | .vbool b => b
  | .vint n => n != 0
  | .vstr s => s != ""
  | .vbytes s => s != ""
  | .varr xs => !xs.isEmpty
  | .vobj fs => !fs.isEmpty

/-- One chunk row (mid, kind, data) as yielded by serialize and stored in the
chunk table. A JSON payload is modeled by its parsed value, a content payload
by the raw popped value. -/
structure Chunk where
  mid : String
  kind : String
  data : Val
deriving Repr

/-- v.pop(key) where v must be a dict (otherwise AttributeError/KeyError,
modeled `none`). -/
def popField (v : Val) (key : String) : Option (Val × Val) :=
  match v with
  | .vobj d => (dpop d key).map (fun p => (p.1, .vobj p.2))
  | _ => none

/-- The fields of v, when v is a dict. -/
def asDict : Val → Option (List (String × Val))
  | .vobj d => some d
  | _ => none

/-- v[key] where v must be a dict. -/
def getField (v : Val) (key : String) : Option Val := do
  lookupD (← asDict v) key

/-- v[key] = x where v must be a dict. -/
def setField (v : Val) (key : String) (x : Val) : Option Val :=
  (asDict v).map (fun d => Val.vobj (dset d key x))

/-- Python `key in v` for a dict (or a list, where it is membership of the
key string among the elements); other receivers are not modeled. -/
def inField (v : Val) (key : String) : Option Bool :=
  match v with
  | .vobj d => some (containsD d key)
  | .varr xs =>
      some (xs.any (fun x =>
        match x with
        | .vstr s => s == key
        | _ => false))
  | _ => none

/-- src/dbview.py serialize, the then-branch for one http.HTTPFlow (lines
127-142): yields a request_content chunk, a response_content chunk when the
flow has a response, then client_conn, server_conn and http_flow JSON chunks.
`st` is flow.get_state(); the `if flow.response:` test is modeled by the
truthiness of state["response"] (flow.response is None exactly when its state
entry is null). -/
def serializeFlow (fid : String) (st : List (String × Val)) :
    Option (List Chunk) := do
  let req ← lookupD st "request"
  let (reqContent, req2) ← popField req "content"
  let st := dset st "request" req2
  let respV := (lookupD st "response").getD .vnull
  let (respChunks, st) ←
    if pyTruthy respV then do
      let (respContent, resp2) ← popField respV "content"
      pure ([(⟨fid, "response_content", respContent⟩ : Chunk)],
            dset st "response" resp2)
    else
      pure (([] : List Chunk), st)
  let (cc, st) ← dpop st "client_conn"
  let (sc, st) ← dpop st "server_conn"
  pure (⟨fid, "request_content", reqContent⟩ :: respChunks ++
    [⟨fid, "client_conn", pyToJson cc⟩,
     ⟨fid, "server_conn", pyToJson sc⟩,
     ⟨fid, "http_flow", .vobj (pyToJsonDict st)⟩])

/-- One argument of src/dbview.py serialize: an http.HTTPFlow (its id and its
get_state() dict), or a value of any other type, carrying that type's name
for the log line. -/
inductive Event where
  | http (fid : String) (st : List (String × Val))
  | other (typeName : String)

/-- src/dbview.py serialize(*flows) (lines 125-144): the chunks yielded and
the ctx.log.error lines emitted; `none` models an uncaught exception from a
malformed HTTP flow state. -/
def serialize : List Event → Option (List Chunk × List String)
  | [] => some ([], [])
  | .http fid st :: rest => do
      let cs ← serializeFlow fid st
      let (cs2, logs) ← serialize rest
      pure (cs ++ cs2, logs)
  | .other t :: rest => do
      let (cs2, logs) ← serialize rest
      pure (cs2, ("Did not know how to serialize " ++ t) :: logs)

/-- The concrete flow class deserialize resolves; http.HTTPFlow is the only
one ever assigned (src/dbview.py line 166). -/
inductive Cls where
  | httpFlow
deriving Repr, DecidableEq

/-- The object built by cls.from_state(state). Modelled from the spec: the
producer's flow snapshots expose "a state-accessor and a state-constructor";
the constructor (mitmproxy HTTPFlow.from_state, outside this repository)
records the given state, and the source notes it does not coerce str values
back to bytes ("there are still differences where byte values are
deserialized as str"). -/
structure FlowRecord where
  cls : Cls
  state : List (String × Val)
deriving Repr

/-- The header re-encoding [[k.encode(), v.encode()] for k, v in headers]
(src/dbview.py lines 156-158 and 162-165) on one element: it must unpack
into two str values, anything else raises. -/
def encodeHeaderPair : Val → Option Val
  | .varr [.vstr k, .vstr v] => some (.varr [.vbytes k, .vbytes v])
  | _ => none

/-- The header comprehension element by element, stopping at the first
raising element. -/
def encodeHeadersList : List Val → Option (List Val)
  | [] => some []
  | x :: xs => do
      let y ← encodeHeaderPair x
      let ys ← encodeHeadersList xs
      pure (y :: ys)

/-- The header list re-encoding; the value must be a list. -/
def encodeHeaders : Val → Option Val
  | .varr hs => (encodeHeadersList hs).map .varr
  | _ => none

/-- The certificate comprehension element by element: every element must be
a str. -/
def encodeCertsList : List Val → Option (List Val)
  | [] => some []
  | c :: cs =>
      match c with
      | .vstr s => (encodeCertsList cs).map (fun ys => Val.vbytes s :: ys)
      | _ => none

/-- [cert.encode() for cert in certificate_list] (src/dbview.py lines
172-174); the value must be a list. -/
def encodeCerts : Val → Option Val
  | .varr cs => (encodeCertsList cs).map .varr
  | _ => none

/-- One iteration of the loop in src/dbview.py deserialize (lines 150-178):
the reconstruction state and resolved class after applying one chunk; `none`
models a raised KeyError/TypeError. A chunk of an unknown kind is skipped. -/
def deserStep (acc : List (String × Val) × Option Cls) (c : Chunk) :
    Option (List (String × Val) × Option Cls) :=
  let (st, cls) := acc
  if c.kind = "http_flow" then do
    let payload ← asDict c.data
    let st := dmerge st payload
    let req ← lookupD st "request"
    let hb ← inField req "headers"
    let st ←
      if hb then do
        let hs ← getField req "headers"
        let hs2 ← encodeHeaders hs
        let req2 ← setField req "headers" hs2
        pure (dset st "request" req2)
      else pure st
    let resp ← lookupD st "response"
    let st ←
      if pyTruthy resp then do
        let hb2 ← inField resp "headers"
        if hb2 then do
          let hs ← getField resp "headers"
          let hs2 ← encodeHeaders hs
          let resp2 ← setField resp "headers" hs2
          pure (dset st "response" resp2)
        else pure st
      else pure st
    pure (st, some .httpFlow)
  else if c.kind = "client_conn" then
    pure (dset st "client_conn" c.data, cls)
  else if c.kind = "server_conn" then do
    let certs ← getField c.data "certificate_list"
    let certs2 ← encodeCerts certs
    let sc2 ← setField c.data "certificate_list" certs2
    pure (dset st "server_conn" sc2, cls)
  else if c.kind = "request_content" then do
    let req ← lookupD st "request"
    let req2 ← setField req "content" c.data
    pure (dset st "request" req2, cls)
  else if c.kind = "response_content" then do
    let resp ← lookupD st "response"
    let resp2 ← setField resp "content" c.data
    pure (dset st "response" resp2, cls)
  else
    pure (st, cls)

/-- The chunk loop of deserialize. -/
def deserLoop : List Chunk → (List (String × Val) × Option Cls) →
    Option (List (String × Val) × Option Cls)
  | [], acc => some acc
  | c :: cs, acc => do deserLoop cs (← deserStep acc c)

/-- src/dbview.py deserialize(*chunks) (lines 147-179): fold the chunks into
an initially empty state dict, then cls.from_state(state); when cls is still
None (no http_flow chunk was seen) the call raises AttributeError, modeled
`none`. -/
def deserialize (chunks : List Chunk) : Option FlowRecord := do
  let (st, cls) ← deserLoop chunks ([], none)
  match cls with
  | some c => some (⟨c, st⟩ : FlowRecord)
  | none => none

/-- INSERT OR REPLACE INTO chunk(mid, kind, data) VALUES (?, ?, ?) on one row
(src/dbview.py lines 190-193). Modelled from the spec: schema.sql (read at
src/dbview.py line 116 but not part of src/) declares the chunk table with
"unique key (flowId, kind)", so OR REPLACE deletes every row with the same
(mid, kind) and appends the new row. -/
def upsert (tbl : List Chunk) (r : Chunk) : List Chunk :=
  tbl.filter (fun q => !(q.mid == r.mid && q.kind == r.kind)) ++ [r]

/-- The insert loop of store: stops at the first failing INSERT. `fails`
abstracts an engine-level failure (disk full, storage unavailable) on the
row being inserted. -/
def insertLoop (fails : Chunk → Bool) (tbl : List Chunk) :
    List Chunk → Option (List Chunk)
  | [] => some tbl
  | r :: rs => if fails r then none else insertLoop fails (upsert tbl r) rs

/-- src/dbview.py store(conn, rowgen) (lines 182-193): the loop of INSERT OR
REPLACE runs inside `with conn`, the sqlite3 transaction scope — commit on
success, rollback and re-raise on an exception. Result: the chunk table
after the call and whether an error was propagated to the caller (rollback
leaves the table unchanged). -/
def store (fails : Chunk → Bool) (tbl : List Chunk) (rows : List Chunk) :
    List Chunk × Bool :=
  match insertLoop fails tbl rows with
  | some t => (t, false)
  | none => (tbl, true)

/-- The chunk table holds at most one live row per (mid, kind) key: no two
rows share the key. -/
def perKeyUnique (tbl : List Chunk) : Prop :=
  tbl.Pairwise (fun a b => ¬(a.mid = b.mid ∧ a.kind = b.kind))

instance : DecidablePred perKeyUnique := fun tbl =>
  List.instDecidablePairwise tbl

/-- The rows of the table holding the given (mid, kind) key. -/
def keyRows (tbl : List Chunk) (m k : String) : List Chunk :=
  tbl.filter (fun r => r.mid == m && r.kind == k)

/-- One bound SQL parameter: a Python int or str. -/
inductive Param where
  | pint (n : Nat)
  | pstr (s : String)
deriving Repr, DecidableEq

/-- The mitmproxy filter AST nodes that src/dbviewff.py handles: the four
leaf classes it registers in the grammar and gives a .sql() method (lines
98-104), FUrl (produced by the naked-regex atom, line 146, but never given a
.sql() method), and the three combinators. -/
inductive FilterExpr where
  | FMarked
  | FMarker (pat : String)
  | FCode (num : Nat)
  | FHead (pat : String)
  | FUrl (pat : String)
  | FAnd (lst : List FilterExpr)
  | FOr (lst : List FilterExpr)
  | FNot (itm : FilterExpr)
deriving Repr

/-- FMarked.where (src/dbviewff.py line 47). -/
def markedWhere : String :=
  "kind='http_flow' and json_extract(data, '$.marked') is not ''"

/-- FMarker.where (src/dbviewff.py line 48). -/
def markerWhere : String :=
  "kind='http_flow' and search(?, json_extract(data, '$.marked'), 0)"

/-- FCode.where (src/dbviewff.py line 49). -/
def codeWhere : String :=
  "kind='http_flow' and json_extract(data, '$.response.status_code') = ?"

/-- FHead.where (src/dbviewff.py lines 50-52). -/
def headWhere : String :=
  "kind='http_flow' and mid in (SELECT mid from header where search(?, kvstr, 0))"

/-- Python sep.join(parts). -/
def strJoin (sep : String) : List String → String
  | [] => ""
  | [x] => x
  | x :: y :: xs => x ++ sep ++ strJoin sep (y :: xs)

mutual
/-- node.sql() as monkeypatched in src/dbviewff.py (lines 55-104): the query
fragment and its ordered bound parameters. `none` models the AttributeError
raised for FUrl, which line 146 produces but lines 98-104 never patch. -/
def sqlOf : FilterExpr → Option (String × List Param)
  | .FMarked => some (markedWhere, [])
  | .FMarker p => some (markerWhere, [.pstr p])
  | .FCode n => some (codeWhere, [.pint n])
  | .FHead p => some (headWhere, [.pstr p])
  | .FUrl _ => none
  | .FAnd lst => do
      let (exprs, bindings) ← sqlList lst
      pure (" ( " ++ strJoin " ) AND ( " exprs ++ " ) ", bindings)
  | .FOr lst => do
      let (exprs, bindings) ← sqlList lst
      pure (" ( " ++ strJoin " ) OR ( " exprs ++ " ) ", bindings)
  | .FNot itm => do
      let (expr, bindings) ← sqlOf itm
      pure ("NOT ( " ++ expr ++ " ) ", bindings)

/-- src/dbviewff.py _concat_expr_binding (lines 70-77): children's fragments
as a list, children's bindings concatenated left to right. -/
def sqlList : List FilterExpr → Option (List String × List Param)
  | [] => some ([], [])
  | item :: rest => do
      let (expr, binding) ← sqlOf item
      let (exprs, bindings) ← sqlList rest
      pure (expr :: exprs, binding ++ bindings)
end

mutual
/-- The parameters each atom binds, collected in left-to-right in-order AST
traversal; the specification-side description of parameter order (the parser
builds the AST so that this traversal is the left-to-right order of the
atoms in the filter text). -/
def leafParams : FilterExpr → List Param
  | .FMarked => []
  | .FMarker p => [.pstr p]
  | .FCode n => [.pint n]
  | .FHead p => [.pstr p]
  | .FUrl p => [.pstr p]
  | .FAnd lst => leafParamsList lst
  | .FOr lst => leafParamsList lst
  | .FNot itm => leafParams itm

/-- leafParams over a child list. -/
def leafParamsList : List FilterExpr → List Param
  | [] => []
  | x :: xs => leafParams x ++ leafParamsList xs
end

/-- pyparsing default whitespace characters (DEFAULT_WHITE_CHARS). -/
def isWs (c : Char) : Bool := c = ' ' || c = '\t' || c = '\n'

/-- pyparsing's implicit leading-whitespace skip. -/
def skipWs : List Char → List Char
  | [] => []
  | c :: cs => if isWs c then skipWs cs else c :: cs

/-- pyparsing printables: the ASCII characters 33..126. pp.WordEnd() (with
its default word characters, printables) succeeds exactly when the next
character is not one of them, or the input has ended. -/
def isPrintableCh (c : Char) : Bool := 33 ≤ c.toNat && c.toNat ≤ 126

/-- The zero-width pp.WordEnd() test at the current position. -/
def wordEndOk : List Char → Bool
  | [] => true
  | c :: _ => !isPrintableCh c

/-- Match the literal characters at the front of the input. -/
def matchChars : List Char → List Char → Option (List Char)
  | [], s => some s
  | l :: ls, c :: cs => if c = l then matchChars ls cs else none
  | _ :: _, [] => none

/-- pp.Literal(lit) + pp.WordEnd(): skip leading whitespace, match the
literal, require a word boundary (src/dbviewff.py lines 121, 135, 140). -/
def matchTok (lit : String) (s : List Char) : Option (List Char) := do
  let rest ← matchChars lit.data (skipWs s)
  if wordEndOk rest then some rest else none

/-- The characters pp.CharsNotIn excludes for an unquoted regex atom
(src/dbviewff.py line 127): round brackets, tilde, both quote characters and
the default whitespace. -/
def isRegexChar (c : Char) : Bool :=
  !(c = '(' || c = ')' || c = '~' || c = '\'' || c = '"' || isWs c)

/-- Longest run of characters satisfying p, and the rest. -/
def spanChars (p : Char → Bool) : List Char → List Char × List Char
  | [] => ([], [])
  | c :: cs =>
    if p c then
      let (a, b) := spanChars p cs
      (c :: a, b)
    else ([], c :: cs)

/-- The body of pp.QuotedString(q, escChar=backslash) after the opening
quote: read to the closing quote, a backslash escaping the next character;
the unescaped text and the rest. -/
def quotedBody (q : Char) : List Char → Option (String × List Char)
  | [] => none
  | c :: cs =>
    if c = q then some ("", cs)
    else if c = '\\' then
      match cs with
      | [] => none
      | d :: ds => (quotedBody q ds).map (fun p => (String.mk (d :: p.1.data), p.2))
    else (quotedBody q cs).map (fun p => (String.mk (c :: p.1.data), p.2))

/-- The regex operand of the grammar (src/dbviewff.py lines 127-133):
unquoted run of allowed characters, or a double- or single-quoted string, in
pyparsing MatchFirst order. -/
def pRegex (s : List Char) : Option (String × List Char) :=
  let s := skipWs s
  match spanChars isRegexChar s with
  | (c :: cs, rest) => some (String.mk (c :: cs), rest)
  | ([], _) =>
    match s with
    | '"' :: cs => quotedBody '"' cs
    | '\'' :: cs => quotedBody '\'' cs
    | _ => none

/-- pp.Word(pp.nums): skip whitespace, one or more digits (src/dbviewff.py
line 140); FCode.make then applies int() to them. -/
def pNum (s : List Char) : Option (Nat × List Char) :=
  match spanChars (fun c => '0' ≤ c && c ≤ '9') (skipWs s) with
  | ([], _) => none
  | (ds, rest) =>
      some (ds.foldl (fun acc c => acc * 10 + (c.toNat - 48)) 0, rest)

/-- One atom of the grammar built by src/dbviewff.py _make (lines 116-149):
pyparsing MatchFirst over "~marked", "~h" regex, "~marker" regex, "~c"
integer, then a naked regex meaning FUrl, in registration order. -/
def pAtom (s : List Char) : Option (FilterExpr × List Char) :=
  match matchTok "~marked" s with
  | some rest => some (.FMarked, rest)
  | none =>
  match matchTok "~h" s with
  | some rest => (pRegex rest).map (fun p => (.FHead p.1, p.2))
  | none =>
  match matchTok "~marker" s with
  | some rest => (pRegex rest).map (fun p => (.FMarker p.1, p.2))
  | none =>
  match matchTok "~c" s with
  | some rest => (pNum rest).map (fun p => (.FCode p.1, p.2))
  | none => (pRegex s).map (fun p => (.FUrl p.1, p.2))

mutual
/-- The base of pp.infixNotation (src/dbviewff.py lines 150-157): a
parenthesized expression or an atom. -/
def pPrimary : Nat → List Char → Option (FilterExpr × List Char)
  | 0, _ => none
  | fuel + 1, s =>
    match skipWs s with
    | '(' :: rest =>
      match pOrLevel fuel rest with
      | some (e, r) =>
        match skipWs r with
        | ')' :: r2 => some (e, r2)
        | _ => none
      | none => none
    | s2 => pAtom s2

/-- The "!" level: unary, right associative, highest precedence; on failure
of the operand pyparsing falls back to the base expression, where "!" can
start a naked regex. -/
def pNotLevel : Nat → List Char → Option (FilterExpr × List Char)
  | 0, _ => none
  | fuel + 1, s =>
    match skipWs s with
    | '!' :: rest =>
      match pNotLevel fuel rest with
      | some (e, r) => some (.FNot e, r)
      | none => pPrimary fuel s
    | _ => pPrimary fuel s

/-- ZeroOrMore("&" operand): pyparsing stops at the first element that does
not match, leaving it unconsumed. -/
def pAndMore : Nat → List FilterExpr → List Char →
    Option (List FilterExpr × List Char)
  | 0, _, _ => none
  | fuel + 1, acc, s =>
    match skipWs s with
    | '&' :: rest =>
      match pNotLevel fuel rest with
      | some (e, r) => pAndMore fuel (acc ++ [e]) r
      | none => some (acc, s)
    | _ => some (acc, s)

/-- The "&" level: left associative; pyparsing flattens every operand of the
run into one FAnd (src/dbviewff.py line 154). -/
def pAndLevel : Nat → List Char → Option (FilterExpr × List Char)
  | 0, _ => none
  | fuel + 1, s =>
    match pNotLevel fuel s with
    | some (e, r) =>
      match pAndMore fuel [e] r with
      | some (es, r2) => some (if es.length = 1 then e else .FAnd es, r2)
      | none => none
    | none => none

/-- ZeroOrMore("|" operand). -/
def pOrMore : Nat → List FilterExpr → List Char →
    Option (List FilterExpr × List Char)
  | 0, _, _ => none
  | fuel + 1, acc, s =>
    match skipWs s with
    | '|' :: rest =>
      match pAndLevel fuel rest with
      | some (e, r) => pOrMore fuel (acc ++ [e]) r
      | none => some (acc, s)
    | _ => some (acc, s)

/-- The "|" level, the lowest-precedence explicit operator (src/dbviewff.py
line 155). -/
def pOrLevel : Nat → List Char → Option (FilterExpr × List Char)
  | 0, _ => none
  | fuel + 1, s =>
    match pAndLevel fuel s with
    | some (e, r) =>
      match pOrMore fuel [e] r with
      | some (es, r2) => some (if es.length = 1 then e else .FOr es, r2)
      | none => none
    | none => none
end

/-- pp.OneOrMore over the whole infix expression (src/dbviewff.py line 158):
expressions adjacent with no explicit operator, collected until no further
expression matches. -/
def pTop : Nat → List FilterExpr → List Char → List FilterExpr × List Char
  | 0, acc, s => (acc, s)
  | fuel + 1, acc, s =>
    match pOrLevel (fuel + 1) s with
    | some (e, r) => pTop fuel (acc ++ [e]) r
    | none => (acc, s)

/-- bnf.parseString(text, parseAll=True) up to the final parse action's
.sql() call: the parsed AST. More than one adjacent expression is wrapped in
one flat FAnd (src/dbviewff.py line 160); an empty or unconsumed input is a
ParseError, modeled `none`. The fuel amply bounds the recursion depth. -/
def parseFilter (text : String) : Option FilterExpr :=
  let (es, rest) := pTop (4 * (text.length + 4)) [] text.data
  if (skipWs rest).isEmpty then
    match es with
    | [] => none
    | [e] => some e
    | es => some (.FAnd es)
  else none

/-- The full parse action of the modified grammar (src/dbviewff.py line
160): parse, then .sql() on the resulting node. -/
def parseSql (text : String) : Option (String × List Param) := do
  sqlOf (← parseFilter text)

/-- SQLite json_extract on a parsed JSON value along an object path: a
missing key, or a step into a non-object, gives SQL NULL (none). -/
def jextract : Val → List String → Option Val
  | v, [] => some v
  | v, k :: ks => do jextract (← getField v k) ks

/-- SQLite three-valued AND (NULL as none). -/
def sqlAnd : Option Bool → Option Bool → Option Bool
  | some false, _ => some false
  | _, some false => some false
  | some true, some true => some true
  | _, _ => none

/-- SQLite three-valued OR. -/
def sqlOr : Option Bool → Option Bool → Option Bool
  | some true, _ => some true
  | _, some true => some true
  | some false, some false => some false
  | _, _ => none

/-- SQLite NOT. -/
def sqlNot : Option Bool → Option Bool
  | some b => some (!b)
  | none => none

mutual
/-- The value of a compiled node's WHERE fragment on one chunk row, for the
fixed clauses of src/dbviewff.py lines 47-52, in SQLite three-valued logic
(NULL as none). `search` is the registered Python re.search SQL function
(src/dbview.py lines 196-197), kept abstract. The FMarked clause is
kind='http_flow' and json_extract(data, '$.marked') is not '' (IS NOT is
never NULL, and NULL IS NOT '' holds); the FCode clause compares the
extracted value with the bound integer, NULL when the path is absent. The
FHead clause consults the header view of schema.sql (not part of src/) and
FUrl never compiles, so neither is given a value. -/
def rowMatches (search : String → String → Bool) :
    FilterExpr → Chunk → Option Bool
  | .FMarked, r =>
      if r.kind = "http_flow" then
        some (match jextract r.data ["marked"] with
              | some (.vstr s) => !(s == "")
              | _ => true)
      else some false
  | .FMarker p, r =>
      if r.kind = "http_flow" then
        match jextract r.data ["marked"] with
        | some (.vstr s) => some (search p s)
        | _ => none
      else some false
  | .FCode n, r =>
      if r.kind = "http_flow" then
        match jextract r.data ["response", "status_code"] with
        | some (.vint m) => some (m == (n : Int))
        | some _ => some false
        | none => none
      else some false
  | .FHead _, _ => none
  | .FUrl _, _ => none
  | .FAnd lst, r => rowMatchesAll search lst r
  | .FOr lst, r => rowMatchesAny search lst r
  | .FNot itm, r => sqlNot (rowMatches search itm r)

/-- The AND-joined fragment of a child list on one row. -/
def rowMatchesAll (search : String → String → Bool) :
    List FilterExpr → Chunk → Option Bool
  | [], _ => some true
  | [e], r => rowMatches search e r
  | e :: e2 :: es, r =>
      sqlAnd (rowMatches search e r) (rowMatchesAll search (e2 :: es) r)

/-- The OR-joined fragment of a child list on one row. -/
def rowMatchesAny (search : String → String → Bool) :
    List FilterExpr → Chunk → Option Bool
  | [], _ => some false
  | [e], r => rowMatches search e r
  | e :: e2 :: es, r =>
      sqlOr (rowMatches search e r) (rowMatchesAny search (e2 :: es) r)
end

/-- SELECT mid FROM chunk WHERE fragment: the mid of every row on which the
compiled predicate evaluates to true. -/
def matchedIds (search : String → String → Bool) (e : FilterExpr)
    (tbl : List Chunk) : List String :=
  (tbl.filter (fun r => rowMatches search e r == some true)).map (fun r => r.mid)

/-- Every key of the first dict occurs in the second. -/
def keysIncl (a b : List (String × Val)) : Bool :=
  a.all (fun p => containsD b p.1)

mutual
/-- Python == on the modeled values: null, booleans, numbers, strings, bytes
and lists compare structurally (bytes never equal str in Python 3); dicts
compare as finite maps, key order irrelevant — the same key set, and equal
values key by key. -/
def pyEq : Val → Val → Bool
  | .vnull, .vnull => true
  | .vbool a, .vbool b => a == b
  | .vint a, .vint b => a == b
  | .vstr a, .vstr b => a == b
  | .vbytes a, .vbytes b => a == b
  | .varr a, .varr b => pyEqList a b
  | .vobj a, .vobj b => pyEqIncl a b && keysIncl b a
  | _, _ => false

/-- Every binding of the first dict is present in the second with a pyEq
value. -/
def pyEqIncl : List (String × Val) → List (String × Val) → Bool
  | [], _ => true
  | (k, v) :: rest, b =>
      (match lookupD b k with
       | some w => pyEq v w
       | none => false) && pyEqIncl rest b

/-- Elementwise pyEq of two lists. -/
def pyEqList : List Val → List Val → Bool
  | [], [] => true
  | x :: xs, y :: ys => pyEq x y && pyEqList xs ys
  | _, _ => false
end

/-- Modelled from the spec: one connection's snapshot state, part of the
state-accessor of the capture engine's flow snapshots (mitmproxy connection
get_state(), outside this repository). Certificates are DER bytes. -/
structure ConnState where
  cid : String
  host : String
  port : Int
  tlsEstablished : Bool
  certs : List String
  tsStart : Int

/-- The state dict of one connection. -/
def connDict (c : ConnState) : List (String × Val) :=
  [("id", .vstr c.cid),
   ("address", .varr [.vstr c.host, .vint c.port]),
   ("tls_established", .vbool c.tlsEstablished),
   ("certificate_list", .varr (c.certs.map Val.vbytes)),
   ("timestamp_start", .vint c.tsStart)]

/-- Modelled from the spec: an HTTP request's snapshot state — bytes-valued
message fields, a header list of bytes pairs, a bytes body (or none) and
numeric timestamps. -/
structure ReqState where
  method : String
  scheme : String
  authority : String
  path : String
  httpVersion : String
  headers : List (String × String)
  content : Option String
  tsStart : Int
  tsEnd : Int

/-- A header list as it appears in a state dict: pairs of bytes values. -/
def hdrsVal (hs : List (String × String)) : Val :=
  .varr (hs.map (fun p => .varr [.vbytes p.1, .vbytes p.2]))

/-- A message body: bytes, or null when missing. -/
def contentVal : Option String → Val
  | some s => .vbytes s
  | none => .vnull

/-- The state dict of the request. -/
def reqDict (r : ReqState) : List (String × Val) :=
  [("method", .vbytes r.method),
   ("scheme", .vbytes r.scheme),
   ("authority", .vbytes r.authority),
   ("path", .vbytes r.path),
   ("http_version", .vbytes r.httpVersion),
   ("headers", hdrsVal r.headers),
   ("content", contentVal r.content),
   ("timestamp_start", .vint r.tsStart),
   ("timestamp_end", .vint r.tsEnd)]

/-- Modelled from the spec: an HTTP response's snapshot state. -/
structure RespState where
  httpVersion : String
  statusCode : Int
  reason : String
  headers : List (String × String)
  content : Option String
  tsStart : Int
  tsEnd : Int

/-- The state dict of the response. -/
def respDict (r : RespState) : List (String × Val) :=
  [("http_version", .vbytes r.httpVersion),
   ("status_code", .vint r.statusCode),
   ("reason", .vbytes r.reason),
   ("headers", hdrsVal r.headers),
   ("content", contentVal r.content),
   ("timestamp_start", .vint r.tsStart),
   ("timestamp_end", .vint r.tsEnd)]

/-- Modelled from the spec: one supported flow — an http.HTTPFlow snapshot
(its id and the parts of its state), the only flow kind the codec serializes. -/
structure MFlow where
  fid : String
  marked : String
  intercepted : Bool
  req : ReqState
  resp : Option RespState
  client : ConnState
  server : ConnState

/-- flow.get_state() of the modeled HTTP flow. -/
def MFlow.state (m : MFlow) : List (String × Val) :=
  [("id", .vstr m.fid),
   ("error", .vnull),
   ("intercepted", .vbool m.intercepted),
   ("marked", .vstr m.marked),
   ("is_replay", .vnull),
   ("type", .vstr "http"),
   ("request", .vobj (reqDict m.req)),
   ("response", match m.resp with
                | some r => .vobj (respDict r)
                | none => .vnull),
   ("client_conn", .vobj (connDict m.client)),
   ("server_conn", .vobj (connDict m.server))]

/-- The request dict after its content was popped. -/
def reqDictNC (r : ReqState) : List (String × Val) :=
  [("method", .vbytes r.method),
   ("scheme", .vbytes r.scheme),
   ("authority", .vbytes r.authority),
   ("path", .vbytes r.path),
   ("http_version", .vbytes r.httpVersion),
   ("headers", hdrsVal r.headers),
   ("timestamp_start", .vint r.tsStart),
   ("timestamp_end", .vint r.tsEnd)]

/-- The response dict after its content was popped. -/
def respDictNC (r : RespState) : List (String × Val) :=
  [("http_version", .vbytes r.httpVersion),
   ("status_code", .vint r.statusCode),
   ("reason", .vbytes r.reason),
   ("headers", hdrsVal r.headers),
   ("timestamp_start", .vint r.tsStart),
   ("timestamp_end", .vint r.tsEnd)]

/-- The chunk sequence serialize yields for the modeled flow, written with
the JSON payloads spelled out (serializeFlow_mflow below proves it equal to
the serializer's output). -/
def MFlow.chunks (m : MFlow) : List Chunk :=
  ⟨m.fid, "request_content", contentVal m.req.content⟩ ::
    (match m.resp with
     | some r => [(⟨m.fid, "response_content", contentVal r.content⟩ : Chunk)]
     | none => []) ++
    [⟨m.fid, "client_conn", pyToJson (.vobj (connDict m.client))⟩,
     ⟨m.fid, "server_conn", pyToJson (.vobj (connDict m.server))⟩,
     ⟨m.fid, "http_flow",
      .vobj (pyToJsonDict
        [("id", .vstr m.fid),
         ("error", .vnull),
         ("intercepted", .vbool m.intercepted),
         ("marked", .vstr m.marked),
         ("is_replay", .vnull),
         ("type", .vstr "http"),
         ("request", .vobj (reqDictNC m.req)),
         ("response", match m.resp with
                      | some r => .vobj (respDictNC r)
                      | none => .vnull)])⟩]

/-- A connection dict after the JSON round trip with its certificate list
re-encoded to bytes by deserialize (the server connection). -/
def connRound (c : ConnState) : List (String × Val) :=
  [("id", .vstr c.cid),
   ("address", .varr [.vstr c.host, .vint c.port]),
   ("tls_established", .vbool c.tlsEstablished),
   ("certificate_list", .varr (c.certs.map Val.vbytes)),
   ("timestamp_start", .vint c.tsStart)]

/-- A connection dict after the JSON round trip with no re-encoding: the
certificate bytes stay text (the client connection). -/
def connDegraded (c : ConnState) : List (String × Val) :=
  [("id", .vstr c.cid),
   ("address", .varr [.vstr c.host, .vint c.port]),
   ("tls_established", .vbool c.tlsEstablished),
   ("certificate_list", .varr (c.certs.map Val.vstr)),
   ("timestamp_start", .vint c.tsStart)]

/-- The request dict deserialize rebuilds: message fields stay text, headers
are re-encoded to bytes, the raw content is re-attached at the end. -/
def reqRound (r : ReqState) : List (String × Val) :=
  [("method", .vstr r.method),
   ("scheme", .vstr r.scheme),
   ("authority", .vstr r.authority),
   ("path", .vstr r.path),
   ("http_version", .vstr r.httpVersion),
   ("headers", hdrsVal r.headers),
   ("timestamp_start", .vint r.tsStart),
   ("timestamp_end", .vint r.tsEnd),
   ("content", contentVal r.content)]

/-- The response dict deserialize rebuilds. -/
def respRound (r : RespState) : List (String × Val) :=
  [("http_version", .vstr r.httpVersion),
   ("status_code", .vint r.statusCode),
   ("reason", .vstr r.reason),
   ("headers", hdrsVal r.headers),
   ("timestamp_start", .vint r.tsStart),
   ("timestamp_end", .vint r.tsEnd),
   ("content", contentVal r.content)]

/-- The state dict deserialize rebuilds from the reversed chunk sequence of
the modeled flow (deserialize_mflow_reversed below proves this). -/
def MFlow.roundState (m : MFlow) : List (String × Val) :=
  [("id", .vstr m.fid),
   ("error", .vnull),
   ("intercepted", .vbool m.intercepted),
   ("marked", .vstr m.marked),
   ("is_replay", .vnull),
   ("type", .vstr "http"),
   ("request", .vobj (reqRound m.req)),
   ("response", match m.resp with
                | some r => .vobj (respRound r)
                | none => .vnull),
   ("server_conn", .vobj (connRound m.server)),
   ("client_conn", .vobj (connDegraded m.client))]

/-- The request dict of the expected round-trip state, in the original key
order: bytes message fields re-expanded to text, headers and content kept as
bytes. -/
def reqExpected (r : ReqState) : List (String × Val) :=
  [("method", .vstr r.method),
   ("scheme", .vstr r.scheme),
   ("authority", .vstr r.authority),
   ("path", .vstr r.path),
   ("http_version", .vstr r.httpVersion),
   ("headers", hdrsVal r.headers),
   ("content", contentVal r.content),
   ("timestamp_start", .vint r.tsStart),
   ("timestamp_end", .vint r.tsEnd)]

/-- The response dict of the expected round-trip state. -/
def respExpected (r : RespState) : List (String × Val) :=
  [("http_version", .vstr r.httpVersion),
   ("status_code", .vint r.statusCode),
   ("reason", .vstr r.reason),
   ("headers", hdrsVal r.headers),
   ("content", contentVal r.content),
   ("timestamp_start", .vint r.tsStart),
   ("timestamp_end", .vint r.tsEnd)]

/-- The flow's state as the lossy round trip is expected to reproduce it, in
the original key order: every bytes value re-expanded to text EXCEPT the
request/response header pairs, the server connection's certificate list and
the content bodies, which deserialize restores to bytes; in particular the
client connection's certificate list stays text. -/
def MFlow.expectedState (m : MFlow) : List (String × Val) :=
  [("id", .vstr m.fid),
   ("error", .vnull),
   ("intercepted", .vbool m.intercepted),
   ("marked", .vstr m.marked),
   ("is_replay", .vnull),
   ("type", .vstr "http"),
   ("request", .vobj (reqExpected m.req)),
   ("response", match m.resp with
                | some r => .vobj (respExpected r)
                | none => .vnull),
   ("client_conn", .vobj (connDegraded m.client)),
   ("server_conn", .vobj (connRound m.server))]

/-- No row insert fails: the storage engine is healthy. -/
def noFail : Chunk → Bool := fun _ => false

/-- A regex oracle for queries whose predicate holds no regex atom. -/
def noSearch : String → String → Bool := fun _ _ => false

/-- A marked flow with response status 200. -/
def flowA : MFlow :=
  { fid := "flow-a", marked := "XX", intercepted := false,
    req := { method := "GET", scheme := "http", authority := "",
             path := "/a", httpVersion := "HTTP/1.1",
             headers := [("host", "example.com")],
             content := some "body-a", tsStart := 1, tsEnd := 2 },
    resp := some { httpVersion := "HTTP/1.1", statusCode := 200,
                   reason := "OK", headers := [("server", "nginx")],
                   content := some "resp-a", tsStart := 3, tsEnd := 4 },
    client := { cid := "ca", host := "10.0.0.1", port := 11111,
                tlsEstablished := false, certs := [], tsStart := 0 },
    server := { cid := "sa", host := "93.0.0.1", port := 80,
                tlsEstablished := false, certs := ["CERT-A"], tsStart := 0 } }

/-- An unmarked flow with response status 200. -/
def flowB : MFlow :=
  { fid := "flow-b", marked := "", intercepted := false,
    req := { method := "GET", scheme := "http", authority := "",
             path := "/b", httpVersion := "HTTP/1.1",
             headers := [("host", "example.com")],
             content := some "body-b", tsStart := 5, tsEnd := 6 },
    resp := some { httpVersion := "HTTP/1.1", statusCode := 200,
                   reason := "OK", headers := [("server", "nginx")],
                   content := some "resp-b", tsStart := 7, tsEnd := 8 },
    client := { cid := "cb", host := "10.0.0.2", port := 22222,
                tlsEstablished := false, certs := [], tsStart := 0 },
    server := { cid := "sb", host := "93.0.0.1", port := 80,
                tlsEstablished := false, certs := ["CERT-B"], tsStart := 0 } }

/-- The chunk table after storing the serialized chunks of flowA and then of
flowB. -/
def demoStore : List Chunk :=
  (store noFail (store noFail [] flowA.chunks).1 flowB.chunks).1

/-- Dumping a header list of bytes pairs re-expands the pairs to text. -/
theorem pyToJson_hdrs (hs : List (String × String)) :
    pyToJsonList (hs.map (fun p => Val.varr [Val.vbytes p.1, Val.vbytes p.2])) =
      hs.map (fun p => Val.varr [Val.vstr p.1, Val.vstr p.2]) := by
  induction hs with
  | nil => rfl
  | cons h t ih => simp [pyToJsonList, pyToJson, ih]

/-- Re-encoding a dumped header list restores the bytes pairs. -/
theorem encodeHeadersList_strs (hs : List (String × String)) :
    encodeHeadersList (hs.map (fun p => Val.varr [Val.vstr p.1, Val.vstr p.2])) =
      some (hs.map (fun p => Val.varr [Val.vbytes p.1, Val.vbytes p.2])) := by
  induction hs with
  | nil => rfl
  | cons h t ih => simp_all [encodeHeadersList, encodeHeaderPair]

/-- Dumping a bytes list re-expands its elements to text. -/
theorem pyToJson_bytesList (cs : List String) :
    pyToJsonList (cs.map Val.vbytes) = cs.map Val.vstr := by
  induction cs with
  | nil => rfl
  | cons h t ih => simp [pyToJsonList, pyToJson, ih]

/-- Re-encoding a dumped certificate list restores the bytes. -/
theorem encodeCertsList_strs (cs : List String) :
    encodeCertsList (cs.map Val.vstr) = some (cs.map Val.vbytes) := by
  induction cs with
  | nil => rfl
  | cons h t ih => simp_all [encodeCertsList]

/-- serialize on a modeled flow yields exactly its chunk sequence. -/
theorem serializeFlow_mflow (m : MFlow) :
    serializeFlow m.fid m.state = some m.chunks := by
  obtain ⟨fid, marked, intercepted, req, resp, client, server⟩ := m
  cases resp <;> rfl

/-- deserialize on the reversed chunk sequence of a modeled flow rebuilds
the round-trip state. -/
theorem deserialize_mflow_reversed (m : MFlow) :
    deserialize m.chunks.reverse = some ⟨Cls.httpFlow, m.roundState⟩ := by
  obtain ⟨fid, marked, intercepted, req, resp, client, server⟩ := m
  cases resp <;>
    simp [deserialize, deserLoop, deserStep, MFlow.chunks, MFlow.roundState,
      reqDictNC, respDictNC, connDict, hdrsVal, pyToJson, pyToJsonList, pyToJsonDict,
      pyToJson_hdrs, encodeHeadersList_strs, pyToJson_bytesList, encodeCertsList_strs,
      dmerge, dset, lookupD, inField, containsD, getField, setField, asDict,
      encodeHeaders, encodeCerts, pyTruthy, reqRound, respRound, connRound,
      connDegraded, contentVal, List.reverse]

/-- pyEq is reflexive on a header list. -/
theorem pyEqList_hdrs (hs : List (String × String)) :
    pyEqList (hs.map (fun p => Val.varr [Val.vbytes p.1, Val.vbytes p.2]))
      (hs.map (fun p => Val.varr [Val.vbytes p.1, Val.vbytes p.2])) = true := by
  induction hs with
  | nil => rfl
  | cons h t ih => simp_all [pyEqList, pyEq]

/-- pyEq is reflexive on a bytes list. -/
theorem pyEqList_bytes (cs : List String) :
    pyEqList (cs.map Val.vbytes) (cs.map Val.vbytes) = true := by
  induction cs with
  | nil => rfl
  | cons h t ih => simp_all [pyEqList, pyEq]

/-- pyEq is reflexive on a str list. -/
theorem pyEqList_strs (cs : List String) :
    pyEqList (cs.map Val.vstr) (cs.map Val.vstr) = true := by
  induction cs with
  | nil => rfl
  | cons h t ih => simp_all [pyEqList, pyEq]

/-- pyEq is reflexive on a body value. -/
theorem contentVal_pyEq (c : Option String) :
    pyEq (contentVal c) (contentVal c) = true := by
  cases c <;> simp [contentVal, pyEq]

/-- The rebuilt state is Python-equal to the expected lossy round-trip state
(they differ only in dict key order). -/
theorem roundState_pyEq (m : MFlow) :
    pyEq (Val.vobj m.roundState) (Val.vobj (MFlow.expectedState m)) = true := by
  obtain ⟨fid, marked, intercepted, req, resp, client, server⟩ := m
  cases resp <;>
    simp [MFlow.roundState, MFlow.expectedState, pyEq, pyEqIncl, pyEqList,
      keysIncl, containsD, lookupD, reqRound, respRound, reqExpected,
      respExpected, connRound, connDegraded, hdrsVal, pyEqList_hdrs,
      pyEqList_bytes, pyEqList_strs, contentVal_pyEq]

/-- C1, counterexample: for the concrete supported flow flowA, deserialize
applied to the sequence serialize yields — request_content first, http_flow
last — raises (KeyError on the empty reconstruction state) instead of
returning a flow record, so decode of encode in the emitted order does not
reproduce the flow's state. -/
theorem c1_roundtrip_counterexample :
    serializeFlow flowA.fid flowA.state = some flowA.chunks ∧
    flowA.chunks.map Chunk.kind =
      ["request_content", "response_content", "client_conn", "server_conn",
       "http_flow"] ∧
    deserialize flowA.chunks = none :=
  ⟨rfl, rfl, rfl⟩

/-- C1, amended: for every supported (modeled HTTP) flow state, deserialize
applied to the REVERSE of the sequence produced by serialize yields an
HTTPFlow record whose state equals — as Python dict equality — the flow's
state with every bytes value re-expanded as text except the request and
response header pairs, the server connection's certificate list and the
content bodies, which are restored to bytes (in particular the client
connection's certificates stay text). -/
theorem c1_roundtrip_amended (m : MFlow) :
    serializeFlow m.fid m.state = some m.chunks ∧
    deserialize m.chunks.reverse = some ⟨Cls.httpFlow, m.roundState⟩ ∧
    pyEq (Val.vobj m.roundState) (Val.vobj (MFlow.expectedState m)) = true :=
  ⟨serializeFlow_mflow m, deserialize_mflow_reversed m, roundState_pyEq m⟩

/-- C10: deserialize is order-sensitive for content chunks: for the complete
chunk set of flowB, the order serialize emits — request_content before
http_flow — raises (the reconstruction state holds no request yet), while
the reversed order, http_flow first, succeeds. -/
theorem c10_content_order_sensitivity :
    flowB.chunks.map Chunk.kind =
      ["request_content", "response_content", "client_conn", "server_conn",
       "http_flow"] ∧
    deserialize flowB.chunks = none ∧
    deserialize flowB.chunks.reverse = some ⟨Cls.httpFlow, flowB.roundState⟩ :=
  ⟨rfl, rfl, rfl⟩

/-- A deserialize step on a chunk whose kind is not http_flow never resolves
the class. -/
theorem deserStep_no_http (st : List (String × Val)) (c : Chunk)
    (h : c.kind ≠ "http_flow") (res : List (String × Val) × Option Cls)
    (he : deserStep (st, none) c = some res) : res.2 = none := by
  simp only [deserStep] at he
  rw [if_neg h] at he
  split_ifs at he
  · cases he; rfl
  · cases hg : getField c.data "certificate_list" with
    | none => simp [hg] at he
    | some certs =>
        cases hg2 : encodeCerts certs with
        | none => simp [hg, hg2] at he
        | some certs2 =>
            cases hg3 : setField c.data "certificate_list" certs2 with
            | none => simp [hg, hg2, hg3] at he
            | some sc2 => simp [hg, hg2, hg3] at he; simp [← he]
  · cases hg : lookupD st "request" with
    | none => simp [hg] at he
    | some req =>
        cases hg2 : setField req "content" c.data with
        | none => simp [hg, hg2] at he
        | some req2 => simp [hg, hg2] at he; simp [← he]
  · cases hg : lookupD st "response" with
    | none => simp [hg] at he
    | some resp =>
        cases hg2 : setField resp "content" c.data with
        | none => simp [hg, hg2] at he
        | some resp2 => simp [hg, hg2] at he; simp [← he]
  · cases he; rfl

/-- The deserialize loop over chunks holding no http_flow chunk never
resolves the class. -/
theorem deserLoop_no_http (chunks : List Chunk) :
    ∀ (st : List (String × Val)),
      (∀ c ∈ chunks, c.kind ≠ "http_flow") →
      ∀ res, deserLoop chunks (st, none) = some res → res.2 = none := by
  induction chunks with
  | nil => intro st _ res he; cases he; rfl
  | cons c cs ih =>
      intro st h res he
      have hc : c.kind ≠ "http_flow" := h c (by simp)
      cases hstep : deserStep (st, none) c with
      | none => simp [deserLoop, hstep] at he
      | some acc =>
          simp only [deserLoop, hstep] at he
          have hsnd : acc.2 = none := deserStep_no_http st c hc acc hstep
          obtain ⟨st2, cls2⟩ := acc
          simp only at hsnd
          subst hsnd
          exact ih st2 (fun d hd => h d (by simp [hd])) res he

/-- C7: a chunk sequence holding no http_flow chunk cannot be decoded:
deserialize fails (the class is never resolved, so cls.from_state raises)
and returns no flow record. -/
theorem c7_decode_requires_http_chunk (chunks : List Chunk)
    (h : ∀ c ∈ chunks, c.kind ≠ "http_flow") : deserialize chunks = none := by
  unfold deserialize
  cases he : deserLoop chunks ([], none) with
  | none => rfl
  | some res =>
      have := deserLoop_no_http chunks [] h res he
      obtain ⟨st2, cls2⟩ := res
      simp only at this
      subst this
      rfl

/-- C7 witness: a concrete chunk list without an http_flow chunk. -/
theorem c7_witness :
    (∀ c ∈ [(⟨"f0", "client_conn", Val.vobj []⟩ : Chunk)],
      c.kind ≠ "http_flow") ∧
    deserialize [(⟨"f0", "client_conn", Val.vobj []⟩ : Chunk)] = none :=
  ⟨by decide, c7_decode_requires_http_chunk _ (by decide)⟩

/-- C9: an event that is not an HTTP flow contributes no chunk, adds one
"Did not know how to serialize" log line, and raises nothing: serialize on
the remaining events is otherwise unchanged. -/
theorem c9_unsupported_type_dropped (t : String) (evs : List Event) :
    serialize (Event.other t :: evs) =
      (serialize evs).map
        (fun p => (p.1, ("Did not know how to serialize " ++ t) :: p.2)) := by
  cases h : serialize evs with
  | none => simp [serialize, h]
  | some p => simp [serialize, h]

/-- The insert loop either applies every upsert in order, or fails leaving
the later rows untried. -/
theorem insertLoop_cases (fails : Chunk → Bool) :
    ∀ (rows : List Chunk) (tbl : List Chunk),
      (insertLoop fails tbl rows = some (rows.foldl upsert tbl) ∧
        ∀ r ∈ rows, fails r = false) ∨
      (insertLoop fails tbl rows = none ∧ ∃ r ∈ rows, fails r = true) := by
  intro rows
  induction rows with
  | nil => intro tbl; left; exact ⟨rfl, by simp⟩
  | cons r rs ih =>
      intro tbl
      by_cases hr : fails r
      · right
        refine ⟨by simp [insertLoop, hr], ⟨r, by simp, hr⟩⟩
      · rcases ih (upsert tbl r) with ⟨h1, h2⟩ | ⟨h1, w, hw, hf⟩
        · left
          refine ⟨by simp [insertLoop, hr, h1], ?_⟩
          intro x hx
          rcases List.mem_cons.mp hx with rfl | hx
          · simpa using hr
          · exact h2 x hx
        · right
          exact ⟨by simp [insertLoop, hr, h1], w, by simp [hw], hf⟩

/-- C3: every store (put) call is atomic — either every row of the batch is
upserted, in order, and no error is raised, or some insert failed, the
transaction is rolled back leaving the table exactly as it was, and the
error is propagated; no partial batch is ever left applied. -/
theorem c3_put_atomic (fails : Chunk → Bool) (tbl rows : List Chunk) :
    (store fails tbl rows = (rows.foldl upsert tbl, false) ∧
      ∀ r ∈ rows, fails r = false) ∨
    (store fails tbl rows = (tbl, true) ∧ ∃ r ∈ rows, fails r = true) := by
  rcases insertLoop_cases fails rows tbl with ⟨h1, h2⟩ | ⟨h1, h2⟩
  · left; exact ⟨by simp [store, h1], h2⟩
  · right; exact ⟨by simp [store, h1], h2⟩

/-- After an upsert, the rows holding the inserted key are exactly the new
row. -/
theorem keyRows_upsert (tbl : List Chunk) (r : Chunk) :
    keyRows (upsert tbl r) r.mid r.kind = [r] := by
  simp only [keyRows, upsert, List.filter_append, List.filter_filter]
  rw [List.filter_eq_nil_iff.mpr, List.nil_append]
  · simp
  · intro a _
    simp [Bool.and_not_self]

/-- Upserting preserves key uniqueness. -/
theorem perKeyUnique_upsert (tbl : List Chunk) (r : Chunk)
    (h : perKeyUnique tbl) : perKeyUnique (upsert tbl r) := by
  unfold perKeyUnique upsert
  rw [List.pairwise_append]
  refine ⟨List.Pairwise.filter _ h, List.pairwise_singleton _ _, ?_⟩
  intro a ha b hb
  rw [List.mem_singleton] at hb
  subst hb
  have := List.of_mem_filter ha
  simp only [Bool.not_eq_true', Bool.and_eq_false_iff] at this
  rcases this with h1 | h1 <;>
    · intro hc
      simp [hc.1, hc.2] at h1

/-- The insert loop preserves key uniqueness of the table. -/
theorem perKeyUnique_insertLoop (fails : Chunk → Bool) :
    ∀ (rows tbl : List Chunk), perKeyUnique tbl →
      ∀ t, insertLoop fails tbl rows = some t → perKeyUnique t := by
  intro rows
  induction rows with
  | nil => intro tbl h t ht; cases ht; exact h
  | cons r rs ih =>
      intro tbl h t ht
      by_cases hr : fails r
      · simp [insertLoop, hr] at ht
      · simp only [insertLoop, hr, Bool.false_eq_true, if_false] at ht
        exact ih (upsert tbl r) (perKeyUnique_upsert tbl r h) t ht

/-- C4: putting the same (mid, kind) chunk twice leaves exactly one row for
that key, holding the payload of the latest call; and every put — any batch,
any failure behavior — preserves the at-most-one-live-chunk-per-key
invariant (upsert is replace). -/
theorem c4_upsert_idempotent (tbl : List Chunk) (m k : String) (d1 d2 : Val)
    (fails : Chunk → Bool) (rows : List Chunk) (hinv : perKeyUnique tbl) :
    keyRows (store noFail (store noFail tbl
        [(⟨m, k, d1⟩ : Chunk)]).1 [(⟨m, k, d2⟩ : Chunk)]).1 m k
      = [(⟨m, k, d2⟩ : Chunk)] ∧
    perKeyUnique (store fails tbl rows).1 := by
  constructor
  · have h2 := keyRows_upsert (upsert tbl ⟨m, k, d1⟩) ⟨m, k, d2⟩
    simpa [store, insertLoop, noFail] using h2
  · rcases ht : insertLoop fails tbl rows with - | t
    · simp only [store, ht]; exact hinv
    · simp only [store, ht]
      exact perKeyUnique_insertLoop fails rows tbl hinv t ht

/-- C4 witness: an empty table, one key written twice. -/
theorem c4_witness :
    perKeyUnique ([] : List Chunk) ∧
    (keyRows (store noFail (store noFail []
        [(⟨"f0", "http_flow", Val.vstr "a"⟩ : Chunk)]).1
        [(⟨"f0", "http_flow", Val.vstr "b"⟩ : Chunk)]).1 "f0" "http_flow"
      = [(⟨"f0", "http_flow", Val.vstr "b"⟩ : Chunk)] ∧
    perKeyUnique (store noFail [] []).1) :=
  ⟨by decide,
   c4_upsert_idempotent [] "f0" "http_flow" (Val.vstr "a") (Val.vstr "b")
     noFail [] (by decide)⟩

/-- C2, counterexample: the grammar parses "~marked ~c 200 | ~c 201" as
marked AND (200 OR 201) — the infix levels consume "|" before the top-level
OneOrMore joins adjacent expressions — which is not the claimed
(marked AND 200) OR 201. -/
theorem c2_precedence_counterexample :
    parseFilter "~marked ~c 200 | ~c 201" =
      some (.FAnd [.FMarked, .FOr [.FCode 200, .FCode 201]]) ∧
    (FilterExpr.FAnd [.FMarked, .FOr [.FCode 200, .FCode 201]] ≠
      FilterExpr.FOr [.FAnd [.FMarked, .FCode 200], .FCode 201]) :=
  ⟨rfl, by simp⟩

/-- C2, amended: the grammar parses "~marked ~c 200 | ~c 201" as
marked AND (code=200 OR code=201): the explicit "|" operator binds TIGHTER
than the implicit AND between adjacent atoms, which is applied last, at the
top level, over the whole-expression list. -/
theorem c2_precedence_amended :
    parseFilter "~marked ~c 200 | ~c 201" =
      some (.FAnd [.FMarked, .FOr [.FCode 200, .FCode 201]]) := rfl

/-- C6: the filter text "~marked ~c 200" parses to FAnd [FMarked, FCode 200]
and compiles to the conjunction of the marked-is-set clause and the
status-code clause with exactly one bound parameter, the integer 200; run
over the chunk table holding the marked status-200 flow flowA and the
unmarked status-200 flow flowB (both stored from serialize), the query
matches exactly flowA's id. -/
theorem c6_marked_code_query :
    parseFilter "~marked ~c 200" = some (.FAnd [.FMarked, .FCode 200]) ∧
    parseSql "~marked ~c 200" =
      some (" ( " ++ markedWhere ++ " ) AND ( " ++ codeWhere ++ " ) ",
            [Param.pint 200]) ∧
    serializeFlow flowA.fid flowA.state = some flowA.chunks ∧
    serializeFlow flowB.fid flowB.state = some flowB.chunks ∧
    matchedIds noSearch (.FAnd [.FMarked, .FCode 200]) demoStore =
      ["flow-a"] :=
  ⟨rfl, rfl, rfl, rfl, rfl⟩

/-- _concat_expr_binding on children whose sql() results are given: the
fragments in order, the bindings concatenated left to right. -/
theorem sqlList_of_res :
    ∀ (lst : List FilterExpr) (res : List (String × List Param)),
      lst.map sqlOf = res.map some →
      sqlList lst = some (res.map Prod.fst, (res.map Prod.snd).flatten) := by
  intro lst
  induction lst with
  | nil =>
      intro res h
      have : res = [] := by
        cases res with
        | nil => rfl
        | cons r rs => simp at h
      subst this
      rfl
  | cons x xs ih =>
      intro res h
      cases res with
      | nil => simp at h
      | cons r rs =>
          simp only [List.map_cons, List.cons.injEq] at h
          obtain ⟨h1, h2⟩ := h
          simp [sqlList, h1, ih rs h2]

/-- Joining with " ) AND ( " inside one outer bracket pair — the source's
form — equals wrapping each fragment in brackets and joining with the bare
operator. -/
theorem strJoin_paren (op : String) :
    ∀ (fs : List String), fs ≠ [] →
      " ( " ++ strJoin (" ) " ++ op ++ " ( ") fs ++ " ) " =
        strJoin op (fs.map (fun f => " ( " ++ f ++ " ) ")) := by
  intro fs
  induction fs with
  | nil => intro h; exact absurd rfl h
  | cons x ys ih =>
      intro _
      cases ys with
      | nil => rfl
      | cons y yss =>
          have := ih (by simp)
          simp only [strJoin, List.map_cons] at this ⊢
          rw [← this]
          simp [String.append_assoc]

/-- C5: compiling FAnd (FOr) over a non-empty child list whose children
compile to the given results yields each child's compiled fragment enclosed
in brackets and joined by AND (OR), with the children's parameter lists
concatenated in left-to-right child order. -/
theorem c5_and_or_compile (lst : List FilterExpr)
    (res : List (String × List Param))
    (h : lst.map sqlOf = res.map some) (hne : lst ≠ []) :
    sqlOf (.FAnd lst) =
      some (strJoin "AND" (res.map (fun r => " ( " ++ r.1 ++ " ) ")),
            (res.map Prod.snd).flatten) ∧
    sqlOf (.FOr lst) =
      some (strJoin "OR" (res.map (fun r => " ( " ++ r.1 ++ " ) ")),
            (res.map Prod.snd).flatten) := by
  have hres : res ≠ [] := by
    intro h0
    subst h0
    simp at h
    exact hne h
  have hfs : res.map Prod.fst ≠ [] := by simpa using hres
  have hl := sqlList_of_res lst res h
  have hand := strJoin_paren "AND" (res.map Prod.fst) hfs
  have hor := strJoin_paren "OR" (res.map Prod.fst) hfs
  constructor <;>
    · simp only [sqlOf, hl, Option.some_bind]
      rw [show (" ) " ++ "AND" ++ " ( " : String) = " ) AND ( " from rfl] at hand
      rw [show (" ) " ++ "OR" ++ " ( " : String) = " ) OR ( " from rfl] at hor
      simp [hand, hor, List.map_map, Function.comp_def]

/-- C5 witness: the children FMarked and FCode 200. -/
theorem c5_witness :
    (([FilterExpr.FMarked, FilterExpr.FCode 200] : List FilterExpr).map sqlOf
      = ([(markedWhere, ([] : List Param)),
          (codeWhere, [Param.pint 200])]).map some) ∧
    (([FilterExpr.FMarked, FilterExpr.FCode 200] : List FilterExpr) ≠ []) ∧
    sqlOf (.FAnd [.FMarked, .FCode 200]) =
      some (strJoin "AND"
              (([(markedWhere, ([] : List Param)),
                 (codeWhere, [Param.pint 200])]).map
                (fun r => " ( " ++ r.1 ++ " ) ")),
            (([(markedWhere, ([] : List Param)),
               (codeWhere, [Param.pint 200])]).map Prod.snd).flatten) :=
  ⟨rfl, by simp,
   (c5_and_or_compile [.FMarked, .FCode 200]
     [(markedWhere, []), (codeWhere, [Param.pint 200])] rfl (by simp)).1⟩

mutual
/-- The bound parameters of a compiled node are its atoms' parameters in
in-order traversal. -/
theorem sqlOf_params :
    ∀ (e : FilterExpr) (f : String) (ps : List Param),
      sqlOf e = some (f, ps) → ps = leafParams e
  | .FMarked, f, ps, h => by
      simp [sqlOf] at h
      simp [leafParams, ← h.2]
  | .FMarker p, f, ps, h => by
      simp [sqlOf] at h
      simp [leafParams, ← h.2]
  | .FCode n, f, ps, h => by
      simp [sqlOf] at h
      simp [leafParams, ← h.2]
  | .FHead p, f, ps, h => by
      simp [sqlOf] at h
      simp [leafParams, ← h.2]
  | .FUrl p, f, ps, h => by
      simp [sqlOf] at h
  | .FAnd lst, f, ps, h => by
      simp only [sqlOf] at h
      cases hb : sqlList lst with
      | none => rw [hb] at h; simp at h
      | some r =>
          obtain ⟨fs, qs⟩ := r
          rw [hb] at h
          simp at h
          have := sqlList_params lst fs qs hb
          simp [leafParams, ← h.2, this]
  | .FOr lst, f, ps, h => by
      simp only [sqlOf] at h
      cases hb : sqlList lst with
      | none => rw [hb] at h; simp at h
      | some r =>
          obtain ⟨fs, qs⟩ := r
          rw [hb] at h
          simp at h
          have := sqlList_params lst fs qs hb
          simp [leafParams, ← h.2, this]
  | .FNot itm, f, ps, h => by
      simp only [sqlOf] at h
      cases hb : sqlOf itm with
      | none => rw [hb] at h; simp at h
      | some r =>
          obtain ⟨f2, ps2⟩ := r
          rw [hb] at h
          simp at h
          have := sqlOf_params itm f2 ps2 hb
          simp [leafParams, ← h.2, this]

/-- The parameters of a compiled child list are the children's leaf
parameters concatenated in order. -/
theorem sqlList_params :
    ∀ (lst : List FilterExpr) (fs : List String) (ps : List Param),
      sqlList lst = some (fs, ps) → ps = leafParamsList lst
  | [], fs, ps, h => by
      simp [sqlList] at h
      simp [leafParamsList, ← h.2]
  | x :: xs, fs, ps, h => by
      simp only [sqlList] at h
      cases hx : sqlOf x with
      | none => rw [hx] at h; simp at h
      | some r =>
          obtain ⟨f1, ps1⟩ := r
          rw [hx] at h
          cases hxs : sqlList xs with
          | none => simp [hxs] at h
          | some r2 =>
              obtain ⟨fs2, ps2⟩ := r2
              simp [hxs] at h
              have h1 := sqlOf_params x f1 ps1 hx
              have h2 := sqlList_params xs fs2 ps2 hxs
              simp [leafParamsList, ← h.2, h1, h2]
end

/-- C8: the compiler is a pure function — two compilations of one AST are
the same (fragment, params) pair by definitional equality, sqlOf being a
function — and the bound parameters of a compiled node are exactly its
atoms' parameters collected in left-to-right in-order traversal, the order
the atoms appear in the source filter text. -/
theorem c8_param_order (e : FilterExpr) (f : String) (ps : List Param)
    (h : sqlOf e = some (f, ps)) : ps = leafParams e :=
  sqlOf_params e f ps h

/-- C8 witness: a compiled conjunction of a regex atom and an integer atom. -/
theorem c8_witness :
    sqlOf (.FAnd [.FMarker "foo", .FCode 200]) =
      some (" ( " ++ markerWhere ++ " ) AND ( " ++ codeWhere ++ " ) ",
            [Param.pstr "foo", Param.pint 200]) ∧
    [Param.pstr "foo", Param.pint 200] =
      leafParams (.FAnd [.FMarker "foo", .FCode 200]) :=
  ⟨rfl, c8_param_order _ _ _ rfl⟩
